import Mathlib

/-!
Verification of the FHA loan-estimate calculator (`src/main.py`).

Python `Decimal` values are modelled by their exact values as rationals
(`Rat`); `Decimal` string construction is exact in Python.  The program runs
under the default `decimal` context, which has two effects that are both
modelled: every arithmetic operation (`+ - * / **`) rounds its exact result
to 28 significant digits with `ROUND_HALF_EVEN` (`roundCtx`, wrapped in the
operation models `dAdd`/`dSub`/`dMul`/`dDiv`/`dPow`), and `Decimal.quantize`
(helper `q2`) signals `InvalidOperation` when the quantized coefficient
exceeds the 28-digit precision (`q2E`) — the only way an exception can escape
the `try/except` block of `fha_quote`.  The rounded value of an operation
depends only on the value of its exact result (trailing-zero bookkeeping in
coefficients never changes a value), so the value-level model is faithful.

Loosely-typed Python values handed to `parse_number` are modelled by `PyVal`;
`pyStr` is Python `str()` on those values (the empty list and dict suffice for
the specification claims).
-/

namespace FhaMain

/-- Loosely-typed Python input values as they reach `parse_number`. -/
inductive PyVal where
  | vNone
  | vInt (n : Int)
  | vStr (s : String)
  | vList
  | vDict
deriving DecidableEq

/-- Python `str()` applied to a `PyVal` (`str([]) = "[]"`, `str(\x7b\x7d) = "\x7b\x7d"`). -/
def pyStr : PyVal → String
  | .vNone => "None"
  | .vInt n => toString n
  | .vStr s => s
  | .vList => "[]"
  | .vDict => "\x7b\x7d"

/-- An `Optional[str]` field as a `PyVal`. -/
def optV : Option String → PyVal
  | none => .vNone
  | some s => .vStr s

/-- Python `x or "0"` on an `Optional[str]`: `None` and `""` are falsy. -/
def orZero : Option String → String
  | none => "0"
  | some s => if s = "" then "0" else s

/-- Python `str.strip()` on a character list: drop leading and trailing
whitespace. -/
def trimChars (cs : List Char) : List Char :=
  ((cs.dropWhile Char.isWhitespace).reverse.dropWhile Char.isWhitespace).reverse

/-- Python `str.strip()` (character-list based, so proofs can evaluate it). -/
def strTrim (s : String) : String := ⟨trimChars s.data⟩

/-- Python `str.lower()` (character-list based, so proofs can evaluate it;
the program only feeds it ASCII). -/
def strLower (s : String) : String := ⟨s.data.map Char.toLower⟩

/-- Does the pattern occur at the head of the haystack (character lists)? -/
def startsWithL : List Char → List Char → Bool
  | [], _ => true
  | _ :: _, [] => false
  | p :: ps, h :: hs => p = h && startsWithL ps hs

/-- Does the pattern occur anywhere inside the haystack (character lists)? -/
def infixOf (pat : List Char) : List Char → Bool
  | [] => startsWithL pat []
  | c :: rest => startsWithL pat (c :: rest) || infixOf pat rest

/-- Python `pat in s` substring test. -/
def containsSub (s pat : String) : Bool := infixOf pat.toList s.toList

/-- Characters removed by `s.replace("$","").replace(",","").replace(" ","")`. -/
def keepChar (c : Char) : Bool := !(c = '$' || c = ',' || c = ' ')

/-- Splits a leading run of ASCII digits from the rest. -/
def takeDigits : List Char → List Char × List Char
  | [] => ([], [])
  | c :: r =>
    if c.isDigit then
      let (d, rest) := takeDigits r
      (c :: d, rest)
    else ([], c :: r)

/-- Numeric value of a list of ASCII digits. -/
def natOfDigits (cs : List Char) : Nat :=
  cs.foldl (fun a c => a * 10 + (c.toNat - 48)) 0

/-- Value of an unsigned decimal numeral `digits[.digits]`. -/
def magOf (cs : List Char) : Rat :=
  let (d, rest) := takeDigits cs
  match rest with
  | '.' :: f => (natOfDigits d : Rat) + (natOfDigits f : Rat) / ((10 : Rat) ^ f.length)
  | _ => (natOfDigits d : Rat)

/-- Value of a signed decimal numeral, i.e. Python `Decimal(s)` on a string
matched by the regex `-?\d+(\.\d+)?`. -/
def valOf : List Char → Rat
  | '-' :: r => -(magOf r)
  | cs => magOf cs

/-- Full match of the regex `_num_pat = -?\d+(\.\d+)?` (ASCII digits). -/
def matchesNum (cs : List Char) : Bool :=
  let cs2 := match cs with | '-' :: r => r | other => other
  let (d, rest) := takeDigits cs2
  d ≠ [] && (rest = [] ||
    (match rest with
     | '.' :: f => f ≠ [] && f.all Char.isDigit
     | _ => false))

/-- The multiplier suffix handling of `parse_number` (`k` ×1000, `m` ×1000000),
returning the multiplier and the remaining characters. -/
def splitSuffix (cs : List Char) : Rat × List Char :=
  match cs.getLast? with
  | some 'k' => (1000, cs.dropLast)
  | some 'm' => (1000000, cs.dropLast)
  | _ => (1, cs)

/-- The tokens `parse_number` maps to zero before any numeric parsing. -/
def sentinelSet : List String := ["no", "none", "no hoa", ""]

/-- Doubling search: the first value in `d, 2d, 4d, ...` whose power of ten
exceeds `n` (fuel-bounded; 128 doublings cover every number in sight). -/
def digUB (n : Nat) : Nat → Nat → Nat
  | d, 0 => d
  | d, f + 1 => if n < 10 ^ d then d else digUB n (2 * d) f

/-- Binary search for the digit count: given `10^lo ≤ n < 10^hi`, narrows to
the unique `d` with `10^(d-1) ≤ n < 10^d` and returns it. -/
def digBS (n : Nat) : Nat → Nat → Nat → Nat
  | _, hi, 0 => hi
  | lo, hi, f + 1 =>
    if hi ≤ lo + 1 then hi
    else if n < 10 ^ ((lo + hi) / 2) then digBS n lo ((lo + hi) / 2) f
    else digBS n ((lo + hi) / 2) hi f

/-- Number of decimal digits of a natural number (length of its base-10
representation; `0` has one digit, as for a `Decimal` coefficient).
Implemented by exponential plus binary search so that it evaluates in
logarithmically many steps even on the very large intermediate numerators
context rounding is applied to. -/
def digits10 (n : Nat) : Nat :=
  if n = 0 then 1 else digBS n 0 (digUB n 1 128) 128

/-- Powers of ten with integer exponent, as rationals. -/
def pow10 (i : Int) : Rat :=
  if 0 ≤ i then ((10 ^ i.toNat : Nat) : Rat) else 1 / ((10 ^ (-i).toNat : Nat) : Rat)

/-- The decimal magnitude of a nonzero rational: the integer `e` with
`10^e ≤ |x| < 10^(e+1)`, computed from the digit counts of numerator and
denominator (for `x = 0` the value is irrelevant). -/
def decExpOf (x : Rat) : Int :=
  let a : Int := digits10 x.num.natAbs
  let b : Int := digits10 x.den
  if x.num.natAbs * 10 ^ digits10 x.den ≥ x.den * 10 ^ digits10 x.num.natAbs
  then a - b else a - b - 1

/-- Round to the nearest integer, ties to the even neighbour — the
`ROUND_HALF_EVEN` mode of the default `decimal` context. -/
def roundHalfEven (x : Rat) : Int :=
  if x - Int.floor x < 1/2 then Int.floor x
  else if (1 : Rat)/2 < x - Int.floor x then Int.floor x + 1
  else if Int.floor x % 2 = 0 then Int.floor x else Int.floor x + 1

/-- Rounding of an exact arithmetic result by the default `decimal` context:
the value is kept to at most 28 significant digits (the default precision),
rounding half-even at the 28th; values that already fit 28 significant digits
pass through unchanged.  The Python `decimal` module applies this to the
result of every arithmetic operation; the value of the rounded result depends
only on the value of the exact result, not on coefficient bookkeeping,
because dropping trailing zeros never changes a value. -/
def roundCtx (x : Rat) : Rat :=
  if x = 0 then 0
  else (roundHalfEven (x * pow10 (27 - decExpOf x)) : Rat) * pow10 (decExpOf x - 27)

/-- Context addition: `Decimal + Decimal` under the default 28-digit
context. -/
def dAdd (x y : Rat) : Rat := roundCtx (x + y)

/-- Context subtraction: `Decimal - Decimal` under the default 28-digit
context. -/
def dSub (x y : Rat) : Rat := roundCtx (x - y)

/-- Context multiplication: `Decimal * Decimal` under the default 28-digit
context. -/
def dMul (x y : Rat) : Rat := roundCtx (x * y)

/-- Context division: `Decimal / Decimal` under the default 28-digit context
(the correctly rounded quotient; division by zero does not occur in the
program, every divisor being a nonzero constant). -/
def dDiv (x y : Rat) : Rat := roundCtx (x / y)

/-- Iterated exact multiplication, the mathematical value of `x ** n`. -/
def ratPow (b : Rat) : Nat → Rat
  | 0 => 1
  | n + 1 => b * ratPow b n

/-- Context power with a natural exponent: `Decimal ** n`.  Modelled as the
exact power rounded once to the 28-digit context — the correctly rounded
result, which is what libmpdec computes for integral exponents (it works at
extended precision and rounds once). -/
def dPow (b : Rat) (n : Nat) : Rat := roundCtx (ratPow b n)

/-- The multiplier selected by the `k`/`m` suffix of the cleaned text. -/
def multOf (s : String) : Rat := (splitSuffix (s.data.filter keepChar)).1

/-- The characters left for `Decimal(s)` after the `$`/`,`/space removal and
the multiplier-suffix strip. -/
def cleanNum (s : String) : List Char := (splitSuffix (s.data.filter keepChar)).2

/-- The text branch of `parse_number` (src/main.py lines 37-54), applied to
the already stripped and lowered text `s`; `orig` is the raw `str(x)` echoed
in the `ValueError` message.  An `.error` is a raised exception: `ValueError`
for a regex mismatch, and the `decimal` module conversion error for
`Decimal("")` (reachable when the input is only a suffix, e.g. `"k"`, because
the regex is checked against `s or "0"`). -/
def parseText (orig s : String) : Except String Rat :=
  if s ∈ sentinelSet then .ok 0
  else if cleanNum s = [] then .error "InvalidOperation"
  else if matchesNum (cleanNum s) then .ok (dMul (valOf (cleanNum s)) (multOf s))
  else .error ("invalid numeric value: " ++ orig)

/-- Embedding of `parse_number` (src/main.py lines 28-54). -/
def parse_number (x : PyVal) : Except String Rat :=
  match x with
  | .vNone => .ok 0
  | .vInt n => .ok (n : Rat)
  | _ => parseText (pyStr x) (strLower (strTrim (pyStr x)))

/-- Embedding of `parse_percent_or_number` (src/main.py lines 56-62). -/
def parse_percent_or_number (x : PyVal) : Except String Rat :=
  match x with
  | .vNone => .ok 0
  | _ =>
    let s := strLower (strTrim (pyStr x))
    let s := if s.data.getLast? = some '%' then (⟨s.data.dropLast⟩ : String) else s
    parse_number (.vStr s)

/-- Embedding of `parse_bool_soft` (src/main.py lines 64-74) on the `str`-typed
payload field (the `isinstance(x, bool)` branch is unreachable for `str`). -/
def parse_bool_soft (x : Option String) : Option Bool :=
  match x with
  | none => none
  | some b =>
    let s := strLower (strTrim b)
    if s ∈ ["true", "t", "yes", "y", "1"] then some true
    else if s ∈ ["false", "f", "no", "n", "0"] then some false
    else none

/-- Half-up rounding (`ROUND_HALF_UP`) of `x` to cents, as an integer count of cents: round to
nearest with ties away from zero (the rounding mode `q2` passes explicitly). -/
def roundHalfUpCents (x : Rat) : Int :=
  if x < 0 then -(Int.floor ((-x) * 100 + 1/2)) else Int.floor (x * 100 + 1/2)

/-- Embedding of `q2` (src/main.py lines 22-23), i.e.
`x.quantize(Decimal("0.01"), rounding=ROUND_HALF_UP)`.  Python signals
`InvalidOperation` when the coefficient of the quantized result exceeds the
default context precision of 28 digits; that raise is the `.error` case. -/
def q2E (x : Rat) : Except String Rat :=
  let c := roundHalfUpCents x
  if digits10 c.natAbs > 28 then .error "InvalidOperation"
  else .ok ((c : Rat) / 100)

/-- The value of a successful `q2` (defaulting to 0; only used where success
has been established). -/
def q2get (x : Rat) : Rat :=
  match q2E x with
  | .ok v => v
  | .error _ => 0

/-- Did the computation succeed (no exception raised)? -/
def isOkE : Except String Rat → Bool
  | .ok _ => true
  | .error _ => false

/-- Embedding of `PROPERTY_MAP` (src/main.py lines 88-106). -/
def PROPERTY_MAP : List (String × String) :=
  [("sfr", "single-family"), ("sfh", "single-family"),
   ("single family", "single-family"), ("single-family", "single-family"),
   ("single family home", "single-family"), ("single-family home", "single-family"),
   ("1 unit", "single-family"), ("1-unit", "single-family"),
   ("2 unit", "1-4 unit"), ("2-unit", "1-4 unit"), ("duplex", "1-4 unit"),
   ("3 unit", "1-4 unit"), ("3-unit", "1-4 unit"), ("triplex", "1-4 unit"),
   ("4 unit", "1-4 unit"), ("4-unit", "1-4 unit"), ("quadplex", "1-4 unit"),
   ("fourplex", "1-4 unit"), ("1–4 unit", "1-4 unit"), ("1-4 unit", "1-4 unit"),
   ("townhome", "townhome"), ("townhouse", "townhome"), ("town house", "townhome"),
   ("th", "townhome"), ("twnhm", "townhome")]

/-- The unit-count tokens of the `1-4 unit` substring heuristic (line 118). -/
def UNIT_TOKENS : List String :=
  ["1-4", "1–4", "duplex", "triplex", "quadplex", "fourplex",
   "2 unit", "3 unit", "4 unit"]

/-- Embedding of `ALLOWED_PROP_TYPES` (src/main.py line 107). -/
def ALLOWED_PROP_TYPES : List String := ["single-family", "townhome", "1-4 unit"]

/-- The alias-table lookup and substring heuristics of
`normalize_property_type` (src/main.py lines 112-120), applied to the already
stripped and lowered text. -/
def normalizeCore (s : String) : Option String :=
  match PROPERTY_MAP.lookup s with
  | some v => some v
  | none =>
    if containsSub s "single" && containsSub s "family" then some "single-family"
    else if containsSub s "town" then some "townhome"
    else if UNIT_TOKENS.any (fun t => containsSub s t) then some "1-4 unit"
    else none

/-- Embedding of `normalize_property_type` (src/main.py lines 108-120).
Python `if not raw` is true for `None` and for the empty string. -/
def normalize_property_type (raw : Option String) : Option String :=
  match raw with
  | none => none
  | some r => if r = "" then none else normalizeCore (strLower (strTrim r))

/-- Embedding of the request model `QuoteInRaw` (src/main.py lines 123-132).
Pydantic delivers each field as `str | None` (`fico` as `int | None`); the
field defaults `"0"` for `hoa` and `lender_credit_percent` are a transport
concern and are represented by the caller passing `some "0"`. -/
structure Payload where
  purchase_price : Option String := none
  down_payment_value : Option String := none
  down_payment_is_percent : Option String := none
  fico : Option Int := none
  monthly_taxes : Option String := none
  monthly_insurance : Option String := none
  hoa : Option String := some "0"
  property_type : Option String := none
  lender_credit_percent : Option String := some "0"
deriving DecidableEq

/-- The normalized inputs produced by the parsing block of `fha_quote`
(src/main.py lines 146-161). -/
structure Parsed where
  fico : Option Int
  price : Rat
  dp_val : Rat
  dp_is_pct : Bool
  taxes : Rat
  ins : Rat
  hoa_amt : Rat
  lcp : Rat
  ptype : Option String
deriving DecidableEq, Inhabited

/-- The percent-flag inference of src/main.py lines 152-155: the soft-parsed
boolean when it resolves, otherwise whether the raw down-payment text contains
`%`. -/
def dpIsPctOf (pl : Payload) : Bool :=
  match parse_bool_soft pl.down_payment_is_percent with
  | some b => b
  | none => (strLower (strTrim (pl.down_payment_value.getD ""))).data.contains '%'

/-- Embedding of the `try:` parsing block of `fha_quote` (src/main.py lines
144-161), with the fallible parses in source order; a `.error` is the caught
exception `e`.  `int(str(payload.fico).strip())` is the identity on an `int`
payload field and cannot raise there, so `fico_val` is `payload.fico`; the
percent-flag inference and the property-type normalization are pure. -/
def parsePhase (pl : Payload) : Except String Parsed :=
  match parse_number (optV pl.purchase_price) with
  | .error e => .error e
  | .ok price =>
    match parse_percent_or_number (optV pl.down_payment_value) with
    | .error e => .error e
    | .ok dp_val =>
      match parse_number (optV pl.monthly_taxes) with
      | .error e => .error e
      | .ok taxes =>
        match parse_number (optV pl.monthly_insurance) with
        | .error e => .error e
        | .ok ins =>
          match parse_number (.vStr (orZero pl.hoa)) with
          | .error e => .error e
          | .ok hoa_amt =>
            match parse_percent_or_number (.vStr (orZero pl.lender_credit_percent)) with
            | .error e => .error e
            | .ok lcp =>
              .ok { fico := pl.fico, price := price, dp_val := dp_val,
                    dp_is_pct := dpIsPctOf pl, taxes := taxes, ins := ins,
                    hoa_amt := hoa_amt, lcp := lcp,
                    ptype := normalize_property_type pl.property_type }

/-- The successfully parsed record (defaulting; only used after success has
been established). -/
def ppOf (pl : Payload) : Parsed :=
  match parsePhase pl with
  | .ok pp => pp
  | .error _ => default

/-- Embedding of the `missing` list construction (src/main.py lines 166-172),
in source order.  Note line 169 strips the raw down-payment text while lines
170-171 compare the raw taxes/insurance text to `""` unstripped. -/
def missingOf (pl : Payload) (pp : Parsed) : List String :=
  (if pp.fico = none then ["credit score"] else []) ++
  (if pp.price = 0 then ["purchase price"] else []) ++
  (if strTrim (pl.down_payment_value.getD "") = "" then ["down payment"] else []) ++
  (if pp.taxes = 0 ∧ (pl.monthly_taxes.getD "") = "" then ["monthly taxes"] else []) ++
  (if pp.ins = 0 ∧ (pl.monthly_insurance.getD "") = "" then ["monthly insurance"] else []) ++
  (if pp.ptype = none then ["property type"] else [])

/-- Embedding of `monthly_p_and_i` (src/main.py lines 76-82), each `Decimal`
operation under the default context: `r = (rate / 100) / 12`,
`factor = (1 + r) ** 360`, and `principal * r * factor / (factor - 1)` in
Python evaluation order. -/
def monthly_p_and_i (principal annual_rate_pct : Rat) : Rat :=
  let r := dDiv (dDiv annual_rate_pct 100) 12
  if r = 0 then dDiv principal 360
  else
    let factor := dPow (dAdd 1 r) 360
    dDiv (dMul (dMul principal r) factor) (dSub factor 1)

/-- Embedding of `choose_rate` (src/main.py lines 84-85): a constant 6.125
regardless of FICO. -/
def choose_rate (_fico : Int) : Rat := 6.125

/-- The raw (pre-`q2`) down payment expression of src/main.py line 177:
`price * (dp_val / Decimal("100"))` under the context, or `dp_val`. -/
def dpRawOf (pp : Parsed) : Rat :=
  if pp.dp_is_pct then dMul pp.price (dDiv pp.dp_val 100) else pp.dp_val

/-- Embedding of `down_payment` (line 177), once its `q2` has succeeded. -/
def downPaymentOf (pp : Parsed) : Rat := q2get (dpRawOf pp)

/-- Embedding of `base_loan = price - down_payment` (line 178), a context
subtraction; not clamped at zero. -/
def baseLoanOf (pp : Parsed) : Rat := dSub pp.price (downPaymentOf pp)

/-- Embedding of `ufmip = q2(base_loan * 0.0175)` (line 204): the context
product, then the explicit half-up quantize, once that `q2` has succeeded. -/
def ufmipOf (pp : Parsed) : Rat := q2get (dMul (baseLoanOf pp) (0.0175 : Rat))

/-- Embedding of `final_loan = base_loan + ufmip` (line 205), a context
addition. -/
def finalLoanOf (pp : Parsed) : Rat := dAdd (baseLoanOf pp) (ufmipOf pp)

/-- Embedding of `p_i = monthly_p_and_i(final_loan, rate)` (src/main.py line 209). -/
def p_iOf (pp : Parsed) (fv : Int) : Rat :=
  monthly_p_and_i (finalLoanOf pp) (choose_rate fv)

/-- Embedding of `mip_monthly = final_loan * 0.0055 / 12` (line 210), each
operation under the context. -/
def mipMonthlyOf (pp : Parsed) : Rat := dDiv (dMul (finalLoanOf pp) (0.0055 : Rat)) 12

/-- Embedding of `pitia = p_i + mip_monthly + taxes + ins + hoa` (line 211),
a left-associated chain of context additions. -/
def pitiaOf (pp : Parsed) (fv : Int) : Rat :=
  dAdd (dAdd (dAdd (dAdd (p_iOf pp fv) (mipMonthlyOf pp)) pp.taxes) pp.ins) pp.hoa_amt

/-- Embedding of `daily_interest = final_loan * (rate / 100) / 365`
(line 214): not pre-rounded to cents, but each operation — in particular the
division by 365 — rounds to the 28-digit context. -/
def dailyInterestOf (pp : Parsed) (fv : Int) : Rat :=
  dDiv (dMul (finalLoanOf pp) (dDiv (choose_rate fv) 100)) 365

/-- Embedding of `interim_interest = daily_interest * 15` (line 215), a
context multiplication, not rounded to cents (the code comment says: 15 days
exact; no pre-round). -/
def interimInterestOf (pp : Parsed) (fv : Int) : Rat := dMul (dailyInterestOf pp fv) 15

/-- Embedding of `c_lender_title = final_loan * 0.0055` (line 225), a context
multiplication, not rounded to cents. -/
def cLenderTitleOf (pp : Parsed) : Rat := dMul (finalLoanOf pp) (0.0055 : Rat)

/-- Embedding of `box_b = appraisal 650 + credit report 100 + flood 30 + ufmip`
(line 222), context additions in Python evaluation order. -/
def boxBOf (pp : Parsed) : Rat := dAdd (dAdd (dAdd 650 100) 30) (ufmipOf pp)

/-- Embedding of `box_c = title 500 + lender title + survey 300` (line 227). -/
def boxCOf (pp : Parsed) : Rat := dAdd (dAdd 500 (cLenderTitleOf pp)) 300

/-- Embedding of `box_e = recording 299 + transfer tax (= lender title)` (line 231). -/
def boxEOf (pp : Parsed) : Rat := dAdd 299 (cLenderTitleOf pp)

/-- Embedding of `box_f = ins * 12 + interim_interest` (line 233), context
multiply and add. -/
def boxFOf (pp : Parsed) (fv : Int) : Rat :=
  dAdd (dMul pp.ins 12) (interimInterestOf pp fv)

/-- Embedding of `box_g = taxes * 3 + ins * 3` (line 234), context multiplies
and add. -/
def boxGOf (pp : Parsed) : Rat := dAdd (dMul pp.taxes 3) (dMul pp.ins 3)

/-- Embedding of `total_closing_costs = box_a + box_b + box_c + box_e + box_f + box_g`
(line 236), with `box_a = 0.00`, context additions in Python evaluation
order. -/
def totalClosingOf (pp : Parsed) (fv : Int) : Rat :=
  dAdd (dAdd (dAdd (dAdd (dAdd 0 (boxBOf pp)) (boxCOf pp)) (boxEOf pp)) (boxFOf pp fv)) (boxGOf pp)

/-- Embedding of `lender_credit_amt = q2(final_loan * (lcp / 100))`
(line 239): context divide and multiply, then the explicit half-up quantize,
once that `q2` has succeeded. -/
def lenderCreditOf (pp : Parsed) : Rat := q2get (dMul (finalLoanOf pp) (dDiv pp.lcp 100))

/-- Embedding of `total_closing_costs - lender_credit_amt` before the floor
(line 240), a context subtraction. -/
def tacRawOf (pp : Parsed) (fv : Int) : Rat :=
  dSub (totalClosingOf pp fv) (lenderCreditOf pp)

/-- Embedding of `total_after_credit`, floored at 0 (lines 241-242). -/
def tacOf (pp : Parsed) (fv : Int) : Rat :=
  if tacRawOf pp fv < 0 then 0 else tacRawOf pp fv

/-- Embedding of `down_payment + total_after_credit` before the floor
(line 244), a context addition. -/
def cashRawOf (pp : Parsed) (fv : Int) : Rat := dAdd (downPaymentOf pp) (tacOf pp fv)

/-- Embedding of `cash_to_close`, floored at `down_payment` (lines 245-246). -/
def cashOf (pp : Parsed) (fv : Int) : Rat :=
  if cashRawOf pp fv < downPaymentOf pp then downPaymentOf pp else cashRawOf pp fv

/-- Embedding of `apr_est = q2(rate + 1.06)` (line 249), once its `q2` has
succeeded. -/
def aprOf (fv : Int) : Rat := q2get (dAdd (choose_rate fv) (1.06 : Rat))

/-- All figures computed by the pricing section of `fha_quote` (src/main.py
lines 203-249), at the full precision the code keeps them in. -/
structure Figures where
  price : Rat
  taxes : Rat
  ins : Rat
  hoa_amt : Rat
  fico_val : Int
  down_payment : Rat
  base_loan : Rat
  ufmip : Rat
  final_loan : Rat
  rate : Rat
  p_i : Rat
  mip_monthly : Rat
  pitia : Rat
  daily_interest : Rat
  interim_interest : Rat
  box_a : Rat
  box_b : Rat
  c_lender_title : Rat
  box_c : Rat
  box_e : Rat
  box_f : Rat
  box_g : Rat
  total_closing_costs : Rat
  lender_credit_amt : Rat
  total_after_credit : Rat
  cash_to_close : Rat
  apr_est : Rat
deriving DecidableEq, Inhabited

/-- The pricing computation of `fha_quote` (src/main.py lines 203-249), given
parsed inputs that passed the checks.  Fee constants and box compositions are
as in lines 218-236; `total_after_credit` is floored at 0 (lines 241-242) and
`cash_to_close` at `down_payment` (lines 245-246). -/
def figuresOf (pp : Parsed) (fv : Int) : Figures :=
  { price := pp.price, taxes := pp.taxes, ins := pp.ins, hoa_amt := pp.hoa_amt,
    fico_val := fv, down_payment := downPaymentOf pp, base_loan := baseLoanOf pp,
    ufmip := ufmipOf pp, final_loan := finalLoanOf pp, rate := choose_rate fv,
    p_i := p_iOf pp fv, mip_monthly := mipMonthlyOf pp, pitia := pitiaOf pp fv,
    daily_interest := dailyInterestOf pp fv,
    interim_interest := interimInterestOf pp fv,
    box_a := 0, box_b := boxBOf pp, c_lender_title := cLenderTitleOf pp,
    box_c := boxCOf pp, box_e := boxEOf pp, box_f := boxFOf pp fv,
    box_g := boxGOf pp, total_closing_costs := totalClosingOf pp fv,
    lender_credit_amt := lenderCreditOf pp, total_after_credit := tacOf pp fv,
    cash_to_close := cashOf pp fv, apr_est := aprOf fv }

/-- The cents-rounded amounts the report renders through `fmt_currency`
(src/main.py lines 253-308), one field per non-constant rendered amount. -/
structure Shown where
  price : Rat
  down_payment : Rat
  final_loan : Rat
  pitia : Rat
  cash_to_close : Rat
  box_a : Rat
  box_b : Rat
  ufmip : Rat
  box_c : Rat
  c_lender_title : Rat
  box_e : Rat
  box_f : Rat
  ins12 : Rat
  interim_interest : Rat
  box_g : Rat
  taxes3 : Rat
  ins3 : Rat
  lender_credit_amt : Rat
  total_after_credit : Rat
deriving DecidableEq, Inhabited

/-- Whether the `q2` inside every `fmt_currency` call of the report template
succeeds (the remaining rendered amounts are the small literal fee constants,
whose `q2` always succeeds). -/
def renderOk (f : Figures) : Bool :=
  isOkE (q2E f.price) && isOkE (q2E f.down_payment) && isOkE (q2E f.final_loan) &&
  isOkE (q2E f.pitia) && isOkE (q2E f.cash_to_close) && isOkE (q2E f.box_a) &&
  isOkE (q2E f.box_b) && isOkE (q2E f.ufmip) && isOkE (q2E f.box_c) &&
  isOkE (q2E f.c_lender_title) && isOkE (q2E f.box_e) && isOkE (q2E f.box_f) &&
  isOkE (q2E (dMul f.ins 12)) && isOkE (q2E f.interim_interest) && isOkE (q2E f.box_g) &&
  isOkE (q2E (dMul f.taxes 3)) && isOkE (q2E (dMul f.ins 3)) &&
  isOkE (q2E f.lender_credit_amt) && isOkE (q2E f.total_after_credit)

/-- The amounts of the rendered report: each is `q2` of the corresponding raw
figure, exactly as `fmt_currency` produces it. -/
def mkShown (f : Figures) : Shown :=
  { price := q2get f.price, down_payment := q2get f.down_payment,
    final_loan := q2get f.final_loan, pitia := q2get f.pitia,
    cash_to_close := q2get f.cash_to_close, box_a := q2get f.box_a,
    box_b := q2get f.box_b, ufmip := q2get f.ufmip, box_c := q2get f.box_c,
    c_lender_title := q2get f.c_lender_title, box_e := q2get f.box_e,
    box_f := q2get f.box_f, ins12 := q2get (dMul f.ins 12),
    interim_interest := q2get f.interim_interest, box_g := q2get f.box_g,
    taxes3 := q2get (dMul f.taxes 3), ins3 := q2get (dMul f.ins 3),
    lender_credit_amt := q2get f.lender_credit_amt,
    total_after_credit := q2get f.total_after_credit }

/-- The observable outcomes of `fha_quote`.  Each constructor corresponds to a
distinct return site of src/main.py: `inputProblem` (line 163), `needInfo`
(line 174), `declineProp` (lines 181-187), `declineFico` (lines 188-194),
`declineBase` (lines 195-201, carrying the `q2`-rounded base loan echoed by
the message), `quote` (line 310, carrying the raw figures and the rendered
amounts).  `crash` is an exception escaping the function (an unhandled fault
propagating to the transport layer instead of a textual result). -/
inductive QuoteResult where
  | inputProblem (msg : String)
  | needInfo (missing : List String)
  | crash (msg : String)
  | declineProp
  | declineFico
  | declineBase (shownBase : Rat)
  | quote (f : Figures) (s : Shown)
deriving DecidableEq

/-- The body of `fha_quote` after the missing-fields gate has resolved `fico`
and `ptype` to concrete values (src/main.py lines 166-310).  Control flow in
source order: the missing-fields check (lines 166-174), the down-payment `q2`
(line 177, the first statement that can raise outside the `try`), the three
guardrails (lines 181-201), then pricing; the remaining `q2`/`fmt_currency`
calls that can raise are checked in the order the code reaches them (lines
204, 239, 249, 253-308). -/
def guardAndPrice (pl : Payload) (pp : Parsed) (fv : Int) (pt : String) : QuoteResult :=
  if missingOf pl pp ≠ [] then .needInfo (missingOf pl pp)
  else if isOkE (q2E (dpRawOf pp)) = false then .crash "InvalidOperation"
  else if pt ∉ ALLOWED_PROP_TYPES then .declineProp
  else if fv < 640 then .declineFico
  else if baseLoanOf pp < 150000 then
    (if isOkE (q2E (baseLoanOf pp)) = false then .crash "InvalidOperation"
     else .declineBase (q2get (baseLoanOf pp)))
  else if isOkE (q2E (dMul (baseLoanOf pp) (0.0175 : Rat))) = false then .crash "InvalidOperation"
  else if isOkE (q2E (dMul (finalLoanOf pp) (dDiv pp.lcp 100))) = false then .crash "InvalidOperation"
  else if isOkE (q2E (dAdd (choose_rate fv) (1.06 : Rat))) = false then .crash "InvalidOperation"
  else if renderOk (figuresOf pp fv) = false then .crash "InvalidOperation"
  else .quote (figuresOf pp fv) (mkShown (figuresOf pp fv))

/-- Behavior of `fha_quote` after a successful parse.  When `fico` or `ptype` is `None`
the missing list is necessarily nonempty, so the code returns the
need-more-info message before ever using either value; with both present the
rest of the function runs. -/
def afterParse (pl : Payload) (pp : Parsed) : QuoteResult :=
  match pp.fico, pp.ptype with
  | some fv, some pt => guardAndPrice pl pp fv pt
  | _, _ => .needInfo (missingOf pl pp)

/-- Embedding of `fha_quote` (src/main.py lines 142-310): the `try:`-caught
parse errors become the input-problem message (line 163), and everything else
is `afterParse`. -/
def fha_quote (pl : Payload) : QuoteResult :=
  match parsePhase pl with
  | .error e => .inputProblem ("there was a problem with your inputs: **" ++ e ++ "**")
  | .ok pp => afterParse pl pp

/-- Is the result a full quote? -/
def isQuoteB : QuoteResult → Bool
  | .quote _ _ => true
  | _ => false

/-- Is the result the fixed property-type policy decline? -/
def isDeclinePropB : QuoteResult → Bool
  | .declineProp => true
  | _ => false

/-- The figures of a quote result (defaulting; only used once `isQuoteB` has
been established). -/
def fOf : QuoteResult → Figures
  | .quote f _ => f
  | _ => default

/-- The rendered amounts of a quote result (defaulting; only used once
`isQuoteB` has been established). -/
def sOf : QuoteResult → Shown
  | .quote _ s => s
  | _ => default

/-- The well-formed end-to-end request of the specification: price $400,000,
3.5% down, FICO 700, taxes $300/mo, insurance $100/mo, no HOA,
single-family, no lender credit. -/
def reqBase : Payload :=
  { purchase_price := some "400000", down_payment_value := some "3.5%",
    down_payment_is_percent := none, fico := some 700,
    monthly_taxes := some "300", monthly_insurance := some "100",
    hoa := some "0", property_type := some "single-family",
    lender_credit_percent := some "0" }

/-- A 30-digit purchase price: well-typed text that the parser accepts but
whose down-payment `quantize` overflows the 28-digit context precision. -/
def reqHugePrice : Payload :=
  { reqBase with purchase_price := some "100000000000000000000000000000" }

/-- The guard-ordering scenario of the specification: price $200,000, an
explicit 0% down payment, property type `condo`. -/
def reqCondo : Payload :=
  { reqBase with purchase_price := some "200000",
                 down_payment_value := some "0%",
                 down_payment_is_percent := some "true",
                 property_type := some "condo" }

/-- Sub-cent escrow amounts whose three-month multiples round up per item but
not in the box G subtotal. -/
def reqHalfCent : Payload :=
  { reqBase with purchase_price := some "350000",
                 monthly_taxes := some "0.005",
                 monthly_insurance := some "0.005" }

/-- A down payment of 150% of the purchase price, driving the base loan
negative. -/
def reqOverDown : Payload :=
  { reqBase with purchase_price := some "200000",
                 down_payment_value := some "150%" }

/-- A 50% lender-credit percent, far above the total closing costs. -/
def reqBigCredit : Payload :=
  { reqBase with lender_credit_percent := some "50" }

/-- Negative monthly taxes, accepted by the numeric grammar. -/
def reqNegTaxes : Payload :=
  { reqBase with monthly_taxes := some "-100" }

/-- Zero escrow figures with non-empty raw text, plus a townhouse alias. -/
def reqZeroEscrow : Payload :=
  { reqBase with monthly_taxes := some "0",
                 monthly_insurance := some "0",
                 hoa := some "no",
                 property_type := some "townhouse" }

/-- A supplied purchase price that parses to zero. -/
def reqZeroPrice : Payload :=
  { reqBase with purchase_price := some "$0", monthly_taxes := some "0" }

/-- A 27-significant-digit price with 0% down whose UFMIP product has a
30-digit exact coefficient ending in an exact tie: the context rounds it
half-even before the half-up cent quantize sees it. -/
def reqTie : Payload :=
  { reqBase with purchase_price := some "5800000000000000000000003.14",
                 down_payment_value := some "0%" }

/-- A 13% down payment on a $853,159 price: the line-244 addition of the
six-digit down payment and the interim-interest-laden net needs 29 significant
digits, so it is context-rounded and drops a nonzero final digit. -/
def reqCashRound : Payload :=
  { reqBase with purchase_price := some "853159",
                 down_payment_value := some "13%" }

/-- The input carries no minus sign once normalized: a non-negative number,
absent, or text whose trimmed, lowered form, with `$`/`,`/space removed, does
not start with `-`. -/
def nonNegInputB : PyVal → Bool
  | .vInt n => decide (0 ≤ n)
  | .vNone => true
  | x =>
    match ((strLower (strTrim (pyStr x))).data.filter keepChar).head? with
    | some c => !(c == '-')
    | none => true

section MainTheorems

attribute [local semireducible] Rat.mul Rat.add Rat.sub Rat.inv Rat.ofScientific

set_option maxRecDepth 100000
set_option exponentiation.threshold 1000000

/-- A hypothesis produced by the else-branch of an `if b = false` test yields
`b = true`. -/
theorem bool_true_of_not_false {b : Bool} (h : ¬ b = false) : b = true := by
  cases b <;> simp_all

/-- When `q2` succeeds it returns `q2get`. -/
theorem isOkE_q2E_ok {x : Rat} (h : isOkE (q2E x) = true) : q2E x = .ok (q2get x) := by
  cases hx : q2E x with
  | error e => rw [hx] at h; simp [isOkE] at h
  | ok v => simp [q2get, hx]

/-- A successful `q2` is the half-up cent rounding divided back by 100. -/
theorem q2get_val {x : Rat} (h : isOkE (q2E x) = true) :
    q2get x = ((roundHalfUpCents x : Int) : Rat) / 100 := by
  by_cases hd : digits10 (roundHalfUpCents x).natAbs > 28
  · simp [q2E, hd, isOkE] at h
  · simp [q2get, q2E, hd]

/-- Half-up cent rounding is monotone. -/
theorem roundHalfUpCents_mono {a b : Rat} (hab : a ≤ b) :
    roundHalfUpCents a ≤ roundHalfUpCents b := by
  unfold roundHalfUpCents
  rcases lt_or_le a 0 with ha | ha
  · rcases lt_or_le b 0 with hb | hb
    · rw [if_pos ha, if_pos hb]
      exact neg_le_neg (Int.floor_le_floor (by linarith))
    · rw [if_pos ha, if_neg (not_lt.mpr hb)]
      have h1 : (0 : Int) ≤ Int.floor ((-a) * 100 + 1/2) := by
        apply Int.le_floor.mpr; push_cast; linarith
      have h2 : (0 : Int) ≤ Int.floor (b * 100 + 1/2) := by
        apply Int.le_floor.mpr; push_cast; linarith
      linarith
  · rw [if_neg (not_lt.mpr ha), if_neg (not_lt.mpr (le_trans ha hab))]
    exact Int.floor_le_floor (by linarith)

/-- Successful `q2` roundings preserve order. -/
theorem q2get_mono {a b : Rat} (ha : isOkE (q2E a) = true)
    (hb : isOkE (q2E b) = true) (hab : a ≤ b) : q2get a ≤ q2get b := by
  rw [q2get_val ha, q2get_val hb]
  have h1 : ((roundHalfUpCents a : Int) : Rat) ≤ ((roundHalfUpCents b : Int) : Rat) := by
    exact_mod_cast roundHalfUpCents_mono hab
  linarith

/-- Inversion of a successful parse: the normalized property type is
`normalize_property_type` of the raw field, and `fico` passes through. -/
theorem parsePhase_ok_fields {pl : Payload} {pp : Parsed}
    (h : parsePhase pl = .ok pp) :
    pp.ptype = normalize_property_type pl.property_type ∧ pp.fico = pl.fico := by
  unfold parsePhase at h
  repeat' split at h
  all_goals try exact Except.noConfusion h
  injection h with h
  subst h
  exact ⟨rfl, rfl⟩

/-- After a successful parse, `fha_quote` is `afterParse`. -/
theorem fha_quote_ok {pl : Payload} {pp : Parsed} (hp : parsePhase pl = .ok pp) :
    fha_quote pl = afterParse pl pp := by
  unfold fha_quote
  rw [hp]

/-- With `fico` and `ptype` resolved, `afterParse` is `guardAndPrice`. -/
theorem afterParse_some {pl : Payload} {pp : Parsed} {fv : Int} {pt : String}
    (hf : pp.fico = some fv) (ht : pp.ptype = some pt) :
    afterParse pl pp = guardAndPrice pl pp fv pt := by
  unfold afterParse
  rw [hf, ht]

/-- With `fico` unresolved, `afterParse` is the need-more-info message. -/
theorem afterParse_fico_none {pl : Payload} {pp : Parsed} (hf : pp.fico = none) :
    afterParse pl pp = .needInfo (missingOf pl pp) := by
  unfold afterParse
  rw [hf]

/-- With `ptype` unresolved, `afterParse` is the need-more-info message. -/
theorem afterParse_ptype_none {pl : Payload} {pp : Parsed} (ht : pp.ptype = none) :
    afterParse pl pp = .needInfo (missingOf pl pp) := by
  unfold afterParse
  rw [ht]
  cases pp.fico <;> rfl

/-- Inversion of a quote outcome: the payload parsed, every `quantize` the code
performs succeeded, the guardrails passed, and the result carries exactly the
figures and rendered amounts computed from the parsed inputs. -/
theorem quote_inv (pl : Payload) (h : isQuoteB (fha_quote pl) = true) :
    ∃ pp fv, parsePhase pl = .ok pp ∧ pp.fico = some fv ∧
      fha_quote pl = .quote (figuresOf pp fv) (mkShown (figuresOf pp fv)) ∧
      isOkE (q2E (dpRawOf pp)) = true ∧
      isOkE (q2E (dMul (baseLoanOf pp) (0.0175 : Rat))) = true ∧
      isOkE (q2E (dMul (finalLoanOf pp) (dDiv pp.lcp 100))) = true ∧
      renderOk (figuresOf pp fv) = true ∧
      (150000 : Rat) ≤ baseLoanOf pp := by
  cases hp : parsePhase pl with
  | error e =>
    rw [fha_quote] at h
    rw [hp] at h
    simp [isQuoteB] at h
  | ok pp =>
    rw [fha_quote_ok hp] at h
    cases hf : pp.fico with
    | none => rw [afterParse_fico_none hf] at h; simp [isQuoteB] at h
    | some fv =>
      cases ht : pp.ptype with
      | none => rw [afterParse_ptype_none ht] at h; simp [isQuoteB] at h
      | some pt =>
        rw [afterParse_some hf ht] at h
        unfold guardAndPrice at h
        by_cases h1 : missingOf pl pp ≠ []
        · rw [if_pos h1] at h; simp [isQuoteB] at h
        · rw [if_neg h1] at h
          by_cases h2 : isOkE (q2E (dpRawOf pp)) = false
          · rw [if_pos h2] at h; simp [isQuoteB] at h
          · rw [if_neg h2] at h
            by_cases h3 : pt ∉ ALLOWED_PROP_TYPES
            · rw [if_pos h3] at h; simp [isQuoteB] at h
            · rw [if_neg h3] at h
              by_cases h4 : fv < 640
              · rw [if_pos h4] at h; simp [isQuoteB] at h
              · rw [if_neg h4] at h
                by_cases h5 : baseLoanOf pp < 150000
                · rw [if_pos h5] at h
                  by_cases h5b : isOkE (q2E (baseLoanOf pp)) = false
                  · rw [if_pos h5b] at h; simp [isQuoteB] at h
                  · rw [if_neg h5b] at h; simp [isQuoteB] at h
                · rw [if_neg h5] at h
                  by_cases h6 : isOkE (q2E (dMul (baseLoanOf pp) (0.0175 : Rat))) = false
                  · rw [if_pos h6] at h; simp [isQuoteB] at h
                  · rw [if_neg h6] at h
                    by_cases h7 : isOkE (q2E (dMul (finalLoanOf pp) (dDiv pp.lcp 100))) = false
                    · rw [if_pos h7] at h; simp [isQuoteB] at h
                    · rw [if_neg h7] at h
                      by_cases h8 : isOkE (q2E (dAdd (choose_rate fv) (1.06 : Rat))) = false
                      · rw [if_pos h8] at h; simp [isQuoteB] at h
                      · rw [if_neg h8] at h
                        by_cases h9 : renderOk (figuresOf pp fv) = false
                        · rw [if_pos h9] at h; simp [isQuoteB] at h
                        · refine ⟨pp, fv, rfl, hf, ?_, bool_true_of_not_false h2,
                            bool_true_of_not_false h6, bool_true_of_not_false h7,
                            bool_true_of_not_false h9, le_of_not_lt h5⟩
                          rw [fha_quote_ok hp, afterParse_some hf ht]
                          unfold guardAndPrice
                          rw [if_neg h1, if_neg h2, if_neg h3, if_neg h4,
                              if_neg h5, if_neg h6, if_neg h7, if_neg h8, if_neg h9]

/-- Unpacking of `renderOk`: each rendered amount has a successful `q2`. -/
theorem renderOk_spec {f : Figures} (h : renderOk f = true) :
    isOkE (q2E f.price) = true ∧ isOkE (q2E f.down_payment) = true ∧
    isOkE (q2E f.final_loan) = true ∧ isOkE (q2E f.pitia) = true ∧
    isOkE (q2E f.cash_to_close) = true ∧ isOkE (q2E f.box_a) = true ∧
    isOkE (q2E f.box_b) = true ∧ isOkE (q2E f.ufmip) = true ∧
    isOkE (q2E f.box_c) = true ∧ isOkE (q2E f.c_lender_title) = true ∧
    isOkE (q2E f.box_e) = true ∧ isOkE (q2E f.box_f) = true ∧
    isOkE (q2E (dMul f.ins 12)) = true ∧ isOkE (q2E f.interim_interest) = true ∧
    isOkE (q2E f.box_g) = true ∧ isOkE (q2E (dMul f.taxes 3)) = true ∧
    isOkE (q2E (dMul f.ins 3)) = true ∧ isOkE (q2E f.lender_credit_amt) = true ∧
    isOkE (q2E f.total_after_credit) = true := by
  simp only [renderOk, Bool.and_eq_true] at h
  tauto

/-- The net-after-credit floor keeps `total_after_credit` non-negative. -/
theorem tacOf_nonneg (pp : Parsed) (fv : Int) : 0 ≤ tacOf pp fv := by
  unfold tacOf
  split
  · exact le_rfl
  · exact le_of_not_lt (by assumption)

/-- Powers of ten are positive. -/
theorem pow10_pos (i : Int) : 0 < pow10 i := by
  unfold pow10
  split <;> positivity

/-- Half-even rounding of a non-negative value is non-negative. -/
theorem roundHalfEven_nonneg {x : Rat} (h : 0 ≤ x) : 0 ≤ roundHalfEven x := by
  have hf : (0 : Int) ≤ Int.floor x := Int.floor_nonneg.mpr h
  unfold roundHalfEven
  repeat' split
  all_goals omega

/-- Context rounding preserves non-negativity. -/
theorem roundCtx_nonneg {x : Rat} (h : 0 ≤ x) : 0 ≤ roundCtx x := by
  unfold roundCtx
  split
  · exact le_rfl
  · refine mul_nonneg ?_ (pow10_pos _).le
    exact_mod_cast roundHalfEven_nonneg (mul_nonneg h (pow10_pos _).le)

/-- The cash-to-close floor at line 245 keeps `cash_to_close` at or above the
down payment whatever the context-rounded sum was. -/
theorem cashOf_ge (pp : Parsed) (fv : Int) :
    downPaymentOf pp ≤ cashOf pp fv := by
  unfold cashOf
  split
  · exact le_rfl
  · exact le_of_not_lt (by assumption)

/-- When the line-244 addition is exact (its result fits the 28-digit
context), `cash_to_close = down_payment + total_after_credit` on the nose. -/
theorem cashOf_eq_of_exact (pp : Parsed) (fv : Int)
    (hE : dAdd (downPaymentOf pp) (tacOf pp fv) =
      downPaymentOf pp + tacOf pp fv) :
    cashOf pp fv = downPaymentOf pp + tacOf pp fv := by
  unfold cashOf cashRawOf
  rw [hE]
  exact if_neg (by have := tacOf_nonneg pp fv; linarith)

/-- A value found by `List.lookup` is one of the association-list values. -/
theorem lookup_val_mem {l : List (String × String)} {k v : String}
    (h : List.lookup k l = some v) : v ∈ l.map Prod.snd := by
  induction l with
  | nil => simp [List.lookup] at h
  | cons a t ih =>
    cases a with
    | mk k2 v2 =>
      rw [List.lookup] at h
      split at h
      · injection h with h
        subst h
        exact List.mem_cons_self _ _
      · exact List.mem_cons_of_mem _ (ih h)

/-- The alias table and heuristics only produce `None` or one of the three
allowed labels. -/
theorem normalizeCore_range (s : String) :
    normalizeCore s = none ∨ normalizeCore s = some "single-family" ∨
    normalizeCore s = some "townhome" ∨ normalizeCore s = some "1-4 unit" := by
  unfold normalizeCore
  cases hl : List.lookup s PROPERTY_MAP with
  | some v =>
    have hv : v ∈ PROPERTY_MAP.map Prod.snd := lookup_val_mem hl
    have hall : ∀ x ∈ PROPERTY_MAP.map Prod.snd,
        x = "single-family" ∨ x = "townhome" ∨ x = "1-4 unit" := by decide
    rcases hall v hv with h | h | h <;> subst h <;> simp
  | none =>
    by_cases h1 : (containsSub s "single" && containsSub s "family") = true
    · simp [h1]
    · by_cases h2 : containsSub s "town" = true
      · simp [h1, h2]
      · by_cases h3 : (UNIT_TOKENS.any fun t => containsSub s t) = true
        · simp [h1, h2, h3]
        · simp [h1, h2, h3]

/-- The function `normalize_property_type` only ever produces `None` or one of the three
allowed labels; in particular no input reaches a value outside
`ALLOWED_PROP_TYPES`, so the condo/manufactured decline branch is dead. -/
theorem normalize_range (raw : Option String) :
    normalize_property_type raw = none ∨
    normalize_property_type raw = some "single-family" ∨
    normalize_property_type raw = some "townhome" ∨
    normalize_property_type raw = some "1-4 unit" := by
  cases raw with
  | none => exact Or.inl rfl
  | some r =>
    by_cases hr : r = ""
    · simp [normalize_property_type, hr]
    · simpa [normalize_property_type, hr] using
        normalizeCore_range (strLower (strTrim r))

/-- The property-type policy decline of src/main.py lines 181-187 is
unreachable: `normalize_property_type` never produces a label outside the
allowed set without producing `None`, and `None` is caught by the
missing-fields check first. -/
theorem no_declineProp (pl : Payload) : isDeclinePropB (fha_quote pl) = false := by
  cases hp : parsePhase pl with
  | error e =>
    unfold fha_quote
    rw [hp]
    rfl
  | ok pp =>
    rw [fha_quote_ok hp]
    obtain ⟨hpt, -⟩ := parsePhase_ok_fields hp
    cases hf : pp.fico with
    | none => rw [afterParse_fico_none hf]; rfl
    | some fv =>
      cases ht : pp.ptype with
      | none => rw [afterParse_ptype_none ht]; rfl
      | some pt =>
        rw [afterParse_some hf ht]
        have hmem : pt ∈ ALLOWED_PROP_TYPES := by
          have hr := normalize_range pl.property_type
          rw [← hpt, ht] at hr
          rcases hr with h | h | h | h
          · exact Option.noConfusion h
          all_goals (injection h with h; subst h; decide)
        unfold guardAndPrice
        rw [if_neg (show ¬pt ∉ ALLOWED_PROP_TYPES from not_not_intro hmem)]
        repeat' split
        all_goals rfl

/-- Membership in a conditional singleton chunk of the missing list. -/
theorem mem_ite_list {c : Prop} [Decidable c] {a b : String} :
    a ∈ (if c then [b] else ([] : List String)) ↔ c ∧ a = b := by
  split <;> simp_all

/-- A zero purchase price always puts `purchase price` on the missing list. -/
theorem missing_price_mem (pl : Payload) (pp : Parsed) (h : pp.price = 0) :
    "purchase price" ∈ missingOf pl pp := by
  unfold missingOf
  refine List.mem_append.mpr (Or.inl (List.mem_append.mpr (Or.inl
    (List.mem_append.mpr (Or.inl (List.mem_append.mpr (Or.inl
      (List.mem_append.mpr (Or.inr ?_)))))))))
  rw [if_pos h]
  exact List.mem_cons_self _ _

/-- Non-empty raw taxes text keeps `monthly taxes` off the missing list, no
matter what value it parses to. -/
theorem missing_taxes_not_mem {pl : Payload} {pp : Parsed}
    (h : (pl.monthly_taxes.getD "") ≠ "") :
    "monthly taxes" ∉ missingOf pl pp := by
  unfold missingOf
  intro hmem
  rcases List.mem_append.mp hmem with hmem | h6
  rotate_right
  · exact absurd (mem_ite_list.mp h6).2 (by decide)
  rcases List.mem_append.mp hmem with hmem | h5
  rotate_right
  · exact absurd (mem_ite_list.mp h5).2 (by decide)
  rcases List.mem_append.mp hmem with hmem | h4
  rotate_right
  · exact absurd (mem_ite_list.mp h4).1.2 h
  rcases List.mem_append.mp hmem with hmem | h3
  rotate_right
  · exact absurd (mem_ite_list.mp h3).2 (by decide)
  rcases List.mem_append.mp hmem with h1 | h2
  · exact absurd (mem_ite_list.mp h1).2 (by decide)
  · exact absurd (mem_ite_list.mp h2).2 (by decide)

/-- Non-empty raw insurance text keeps `monthly insurance` off the missing
list, no matter what value it parses to. -/
theorem missing_ins_not_mem {pl : Payload} {pp : Parsed}
    (h : (pl.monthly_insurance.getD "") ≠ "") :
    "monthly insurance" ∉ missingOf pl pp := by
  unfold missingOf
  intro hmem
  rcases List.mem_append.mp hmem with hmem | h6
  rotate_right
  · exact absurd (mem_ite_list.mp h6).2 (by decide)
  rcases List.mem_append.mp hmem with hmem | h5
  rotate_right
  · exact absurd (mem_ite_list.mp h5).1.2 h
  rcases List.mem_append.mp hmem with hmem | h4
  rotate_right
  · exact absurd (mem_ite_list.mp h4).2 (by decide)
  rcases List.mem_append.mp hmem with hmem | h3
  rotate_right
  · exact absurd (mem_ite_list.mp h3).2 (by decide)
  rcases List.mem_append.mp hmem with h1 | h2
  · exact absurd (mem_ite_list.mp h1).2 (by decide)
  · exact absurd (mem_ite_list.mp h2).2 (by decide)

/-- A nonempty missing list always produces the need-more-info message. -/
theorem needInfo_of_missing {pl : Payload} {pp : Parsed}
    (hp : parsePhase pl = .ok pp) (hne : missingOf pl pp ≠ []) :
    fha_quote pl = .needInfo (missingOf pl pp) := by
  rw [fha_quote_ok hp]
  cases hf : pp.fico with
  | none => exact afterParse_fico_none hf
  | some fv =>
    cases ht : pp.ptype with
    | none => exact afterParse_ptype_none ht
    | some pt =>
      rw [afterParse_some hf ht]
      unfold guardAndPrice
      rw [if_pos hne]

/-- The value of an unsigned numeral is non-negative. -/
theorem magOf_nonneg (cs : List Char) : 0 ≤ magOf cs := by
  unfold magOf
  repeat' split
  all_goals positivity

/-- A numeral not starting with a minus sign has a non-negative value. -/
theorem valOf_nonneg {cs : List Char} (h : cs.head? ≠ some '-') :
    0 ≤ valOf cs := by
  unfold valOf
  split
  · simp_all
  · exact magOf_nonneg _

/-- Dropping the last character cannot create a leading minus sign. -/
theorem head_dropLast {l : List Char} (h : l.head? ≠ some '-') :
    l.dropLast.head? ≠ some '-' := by
  match l with
  | [] => simp
  | [a] => simp [List.dropLast]
  | a :: b :: t => simpa [List.dropLast] using h

/-- The suffix multiplier is non-negative and suffix-stripping cannot create a
leading minus sign. -/
theorem splitSuffix_facts {cs0 cs : List Char} {mult : Rat}
    (h : splitSuffix cs0 = (mult, cs)) :
    0 ≤ mult ∧ (cs0.head? ≠ some '-' → cs.head? ≠ some '-') := by
  unfold splitSuffix at h
  split at h <;> rw [Prod.mk.injEq] at h <;>
    obtain ⟨h1, h2⟩ := h <;> subst h1 <;> subst h2
  · exact ⟨by norm_num, fun hh => head_dropLast hh⟩
  · exact ⟨by norm_num, fun hh => head_dropLast hh⟩
  · exact ⟨by norm_num, fun hh => hh⟩

/-- Heads of conditional matches: a true `nonNegInputB`-style guard on the
head character excludes a leading minus sign. -/
theorem head_ne_minus_of_guard {l : List Char}
    (hn : (match l.head? with
           | some c => !(c == '-')
           | none => true) = true) :
    l.head? ≠ some '-' := by
  cases hl : l.head? with
  | none => simp
  | some c =>
    rw [hl] at hn
    simp only [Bool.not_eq_true'] at hn
    simp only [beq_eq_false_iff_ne, ne_eq] at hn
    simp [hn]

/-- The text branch of `parse_number` only returns non-negative values when
the cleaned text does not start with a minus sign. -/
theorem parseText_nonneg {orig s : String} {v : Rat}
    (h : parseText orig s = .ok v)
    (hn : (s.data.filter keepChar).head? ≠ some '-') : 0 ≤ v := by
  unfold parseText at h
  split at h
  · injection h with h
    rw [← h]
  · split at h
    · exact Except.noConfusion h
    · split at h
      · injection h with h
        rw [← h]
        have hsp : splitSuffix (s.data.filter keepChar) = (multOf s, cleanNum s) := rfl
        obtain ⟨hm, hh⟩ := splitSuffix_facts hsp
        exact roundCtx_nonneg (mul_nonneg (valOf_nonneg (hh hn)) hm)
      · exact Except.noConfusion h

/-- C1: the spec claims `fha_quote` returns a textual result for every input
and never terminates with an unhandled exception.  The code violates this: a
30-digit purchase price parses fine, passes the missing-fields check, and then
the `q2` quantize of the down payment (src/main.py line 177, outside the
`try`) signals `InvalidOperation` because the quantized coefficient exceeds
the 28-digit default context precision, so the exception escapes the
function. -/
theorem C1_quote_unhandled_crash :
    fha_quote reqHugePrice = .crash "InvalidOperation" ∧
    q2E (dpRawOf (ppOf reqHugePrice)) = .error "InvalidOperation" :=
  ⟨rfl, rfl⟩

/-- C2 counterexample: the claim says `parse_number` never raises and returns
0 on the input `[]`; in fact the code raises
`ValueError("invalid numeric value: []")` because `str([])` fails the numeric
regex. -/
theorem C2_counterexample_list_raises :
    parse_number PyVal.vList = .error "invalid numeric value: []" :=
  rfl

/-- C2 amended: `parse_number` returns 0 for absent/empty/sentinel inputs and
parses `$`/`k`/`m`/comma formats — on the first eight claimed inputs it
returns the claimed values — but on unparseable text such as the string forms
of `[]` and `\x7b\x7d` it raises `ValueError` (caught by `fha_quote` and turned
into the input-problem message) instead of returning 0. -/
theorem C2_parse_amount_amended :
    parse_number (.vStr "") = .ok 0 ∧
    parse_number (.vStr "no") = .ok 0 ∧
    parse_number (.vStr "none") = .ok 0 ∧
    parse_number (.vStr "$350k") = .ok 350000 ∧
    parse_number (.vStr "1.2m") = .ok 1200000 ∧
    parse_number (.vStr "350,000") = .ok 350000 ∧
    parse_number PyVal.vNone = .ok 0 ∧
    parse_number (.vInt 0) = .ok 0 ∧
    parse_number PyVal.vList = .error "invalid numeric value: []" ∧
    parse_number PyVal.vDict = .error "invalid numeric value: \x7b\x7d" :=
  ⟨rfl, rfl, rfl, rfl, rfl, rfl, rfl, rfl, rfl, rfl⟩

/-- C3: the spec claims `condo`/`manufactured`/`mobile` normalize to an
explicit ineligible category distinct from unrecognized text, and that the
price-200k/condo scenario yields the property-type policy decline.  The code
maps them all to `None` — indistinguishable from unrecognized text — so the
scenario is answered with the need-more-info message naming `property type`,
and the property-type decline branch (whose message explicitly mentions
condos and manufactured homes) is unreachable for every input. -/
theorem C3_condo_policy_decline_dead :
    fha_quote reqCondo = .needInfo ["property type"] ∧
    normalize_property_type (some "condo") = none ∧
    normalize_property_type (some "manufactured") = none ∧
    normalize_property_type (some "mobile home") = none ∧
    normalize_property_type (some "castle") = none ∧
    ∀ pl : Payload, isDeclinePropB (fha_quote pl) = false :=
  ⟨rfl, rfl, rfl, rfl, rfl, no_declineProp⟩

/-- C4 counterexample: for the 27-digit price with 0% down, the exact product
`base_loan * 0.0175` ends in `...054950`; Python first rounds it to the
28-digit context — the dropped `50` is an exact tie, resolved upward past the
odd 28th digit — and the half-up cent quantize then rounds the resulting
`...0550` up, so the quoted UFMIP is one cent above the half-up cent rounding
of the exact product that the claim states. -/
theorem C4_counterexample_tie :
    isQuoteB (fha_quote reqTie) = true ∧
    (fOf (fha_quote reqTie)).ufmip = (101500000000000000000000.06 : Rat) ∧
    q2E ((fOf (fha_quote reqTie)).base_loan * (0.0175 : Rat)) =
      .ok (101500000000000000000000.05 : Rat) :=
  ⟨rfl, rfl, rfl⟩

/-- C4 amended: for every quote, the upfront mortgage insurance is the
half-up cent rounding of the 28-digit-context product `base_loan ⊗ 0.0175`
(that very `quantize` having succeeded) and `final_loan` is the context sum
`base_loan ⊕ ufmip`; whenever the context multiply and add are exact — as for
any cents-exact price below 10^24 — these are exactly
`ufmip = round2(base_loan * 0.0175)` and `final_loan = base_loan + ufmip`. -/
theorem C4_ufmip_and_final_loan (pl : Payload)
    (h : isQuoteB (fha_quote pl) = true) :
    q2E (dMul (fOf (fha_quote pl)).base_loan (0.0175 : Rat)) =
      .ok ((fOf (fha_quote pl)).ufmip) ∧
    (fOf (fha_quote pl)).final_loan =
      dAdd (fOf (fha_quote pl)).base_loan ((fOf (fha_quote pl)).ufmip) ∧
    (dMul (fOf (fha_quote pl)).base_loan (0.0175 : Rat) =
        (fOf (fha_quote pl)).base_loan * (0.0175 : Rat) →
      q2E ((fOf (fha_quote pl)).base_loan * (0.0175 : Rat)) =
        .ok ((fOf (fha_quote pl)).ufmip)) ∧
    (dAdd (fOf (fha_quote pl)).base_loan ((fOf (fha_quote pl)).ufmip) =
        (fOf (fha_quote pl)).base_loan + (fOf (fha_quote pl)).ufmip →
      (fOf (fha_quote pl)).final_loan =
        (fOf (fha_quote pl)).base_loan + (fOf (fha_quote pl)).ufmip) := by
  obtain ⟨pp, fv, hp, hf, heq, hdp, hufm, hcred, hrend, hbase⟩ := quote_inv pl h
  rw [heq]
  refine ⟨isOkE_q2E_ok hufm, rfl, fun hE => ?_, fun hE => ?_⟩
  · rw [← hE]
    exact isOkE_q2E_ok hufm
  · rw [← hE]
    rfl

/-- C4 witness: at the well-formed end-to-end request both context operations
are exact, so the original UFMIP and final-loan equations hold on the nose. -/
theorem C4_witness :
    isQuoteB (fha_quote reqBase) = true ∧
    dMul (fOf (fha_quote reqBase)).base_loan (0.0175 : Rat) =
      (fOf (fha_quote reqBase)).base_loan * (0.0175 : Rat) ∧
    q2E ((fOf (fha_quote reqBase)).base_loan * (0.0175 : Rat)) =
      .ok ((fOf (fha_quote reqBase)).ufmip) ∧
    (fOf (fha_quote reqBase)).final_loan =
      (fOf (fha_quote reqBase)).base_loan + (fOf (fha_quote reqBase)).ufmip :=
  ⟨rfl, rfl, (C4_ufmip_and_final_loan reqBase rfl).2.2.1 rfl,
    (C4_ufmip_and_final_loan reqBase rfl).2.2.2 rfl⟩

/-- C5 counterexample: with 13% down on the $853,159 price the stored
`cash_to_close` is the 28-digit context rounding of
`down_payment + total_after_credit` — the exact sum (whose coefficient has 29
digits, the net carrying the long interim-interest tail ending in a nonzero
digit) is not what the program stores, refuting the claimed exact equation. -/
theorem C5_counterexample_rounded_sum :
    isQuoteB (fha_quote reqCashRound) = true ∧
    decide ((fOf (fha_quote reqCashRound)).cash_to_close =
      (fOf (fha_quote reqCashRound)).down_payment +
        (fOf (fha_quote reqCashRound)).total_after_credit) = false :=
  ⟨rfl, rfl⟩

/-- C5 amended: for every quote, `cash_to_close` is the 28-digit-context sum
`down_payment ⊕ total_after_credit` floored at `down_payment`; the net is
floored at 0; the exact equation
`cash_to_close = down_payment + total_after_credit` holds whenever that
context addition is exact; and in all cases — rounding or not — both the raw
and the rendered cash to close are at least the down payment, the line-245
floor guaranteeing it. -/
theorem C5_cash_to_close_floor (pl : Payload)
    (h : isQuoteB (fha_quote pl) = true) :
    (fOf (fha_quote pl)).cash_to_close =
      (if dAdd (fOf (fha_quote pl)).down_payment (fOf (fha_quote pl)).total_after_credit <
            (fOf (fha_quote pl)).down_payment
       then (fOf (fha_quote pl)).down_payment
       else dAdd (fOf (fha_quote pl)).down_payment (fOf (fha_quote pl)).total_after_credit) ∧
    0 ≤ (fOf (fha_quote pl)).total_after_credit ∧
    (dAdd (fOf (fha_quote pl)).down_payment (fOf (fha_quote pl)).total_after_credit =
        (fOf (fha_quote pl)).down_payment + (fOf (fha_quote pl)).total_after_credit →
      (fOf (fha_quote pl)).cash_to_close =
        (fOf (fha_quote pl)).down_payment + (fOf (fha_quote pl)).total_after_credit) ∧
    (fOf (fha_quote pl)).down_payment ≤ (fOf (fha_quote pl)).cash_to_close ∧
    (sOf (fha_quote pl)).down_payment ≤ (sOf (fha_quote pl)).cash_to_close := by
  obtain ⟨pp, fv, hp, hf, heq, hdp, hufm, hcred, hrend, hbase⟩ := quote_inv pl h
  obtain ⟨-, hdpok, -, -, hcashok, -, -, -, -, -, -, -, -, -, -, -, -, -, -⟩ :=
    renderOk_spec hrend
  rw [heq]
  refine ⟨rfl, tacOf_nonneg pp fv, fun hE => cashOf_eq_of_exact pp fv hE,
    cashOf_ge pp fv, ?_⟩
  show q2get (downPaymentOf pp) ≤ q2get (cashOf pp fv)
  exact q2get_mono hdpok hcashok (cashOf_ge pp fv)

/-- C5 witness: at the well-formed end-to-end request the line-244 addition is
exact, so the original equation holds there, and the cash to close respects
the down-payment floor both raw and rendered. -/
theorem C5_witness :
    isQuoteB (fha_quote reqBase) = true ∧
    dAdd (fOf (fha_quote reqBase)).down_payment (fOf (fha_quote reqBase)).total_after_credit =
      (fOf (fha_quote reqBase)).down_payment + (fOf (fha_quote reqBase)).total_after_credit ∧
    (fOf (fha_quote reqBase)).cash_to_close =
      (fOf (fha_quote reqBase)).down_payment + (fOf (fha_quote reqBase)).total_after_credit ∧
    (fOf (fha_quote reqBase)).down_payment ≤ (fOf (fha_quote reqBase)).cash_to_close ∧
    (sOf (fha_quote reqBase)).down_payment ≤ (sOf (fha_quote reqBase)).cash_to_close :=
  ⟨rfl, rfl, (C5_cash_to_close_floor reqBase rfl).2.2.1 rfl,
    (C5_cash_to_close_floor reqBase rfl).2.2.2.1,
    (C5_cash_to_close_floor reqBase rfl).2.2.2.2⟩

/-- C6 counterexample: with monthly taxes and insurance of $0.005 the rendered
`taxes x 3` and `insurance x 3` line items are $0.02 each, but the rendered
box G subtotal is $0.03, not $0.04 — so subtotals are not sums of
already-rounded line items as the claim states. -/
theorem C6_counterexample_box_g :
    isQuoteB (fha_quote reqHalfCent) = true ∧
    (sOf (fha_quote reqHalfCent)).taxes3 = 2/100 ∧
    (sOf (fha_quote reqHalfCent)).ins3 = 2/100 ∧
    (sOf (fha_quote reqHalfCent)).box_g = 3/100 :=
  ⟨rfl, rfl, rfl, rfl⟩

/-- C6 amended: line items are not rounded to cents internally (they carry
the 28-digit context precision); every reported amount — line item or
subtotal — is rounded half-up to cents exactly once, at render time; the
subtotals are computed from the unrounded values, not from the rendered line
items — the rendered box G is `round2(taxes ⊗ 3 ⊕ ins ⊗ 3)`, box F is
`round2(ins ⊗ 12 ⊕ interim)`, the total is the context sum of the boxes — so
a rendered subtotal can differ by a cent from the sum of its rendered line
items; the rendered interim interest is `round2` of the context product
`daily_interest ⊗ 15`; and when the context operations are exact (as for
cents-exact escrow amounts) box G is exactly `round2(taxes*3 + ins*3)`. -/
theorem C6_rounding_amended (pl : Payload)
    (h : isQuoteB (fha_quote pl) = true) :
    (fOf (fha_quote pl)).interim_interest =
      dMul (fOf (fha_quote pl)).daily_interest 15 ∧
    q2E (dMul (fOf (fha_quote pl)).daily_interest 15) =
      .ok ((sOf (fha_quote pl)).interim_interest) ∧
    q2E (dAdd (dMul (fOf (fha_quote pl)).taxes 3) (dMul (fOf (fha_quote pl)).ins 3)) =
      .ok ((sOf (fha_quote pl)).box_g) ∧
    q2E (dAdd (dMul (fOf (fha_quote pl)).ins 12) (fOf (fha_quote pl)).interim_interest) =
      .ok ((sOf (fha_quote pl)).box_f) ∧
    (fOf (fha_quote pl)).total_closing_costs =
      dAdd (dAdd (dAdd (dAdd (dAdd (fOf (fha_quote pl)).box_a
        (fOf (fha_quote pl)).box_b) (fOf (fha_quote pl)).box_c)
        (fOf (fha_quote pl)).box_e) (fOf (fha_quote pl)).box_f)
        (fOf (fha_quote pl)).box_g ∧
    (dMul (fOf (fha_quote pl)).taxes 3 = (fOf (fha_quote pl)).taxes * 3 →
      dMul (fOf (fha_quote pl)).ins 3 = (fOf (fha_quote pl)).ins * 3 →
      dAdd (dMul (fOf (fha_quote pl)).taxes 3) (dMul (fOf (fha_quote pl)).ins 3) =
        dMul (fOf (fha_quote pl)).taxes 3 + dMul (fOf (fha_quote pl)).ins 3 →
      q2E ((fOf (fha_quote pl)).taxes * 3 + (fOf (fha_quote pl)).ins * 3) =
        .ok ((sOf (fha_quote pl)).box_g)) := by
  obtain ⟨pp, fv, hp, hf, heq, hdp, hufm, hcred, hrend, hbase⟩ := quote_inv pl h
  obtain ⟨-, -, -, -, -, -, -, -, -, -, -, hboxf, -, hint, hboxg, -, -, -, -⟩ :=
    renderOk_spec hrend
  rw [heq]
  refine ⟨rfl, isOkE_q2E_ok hint, isOkE_q2E_ok hboxg, isOkE_q2E_ok hboxf, rfl,
    fun h1 h2 h3 => ?_⟩
  rw [← h1, ← h2, ← h3]
  exact isOkE_q2E_ok hboxg

/-- C6 witness: at the well-formed end-to-end request the escrow products and
their sum are exact, so the rendered box G is exactly
`round2(taxes*3 + ins*3)` there, and the rendered interim interest is the
once-rounded context product. -/
theorem C6_witness :
    isQuoteB (fha_quote reqBase) = true ∧
    dMul (fOf (fha_quote reqBase)).taxes 3 = (fOf (fha_quote reqBase)).taxes * 3 ∧
    q2E ((fOf (fha_quote reqBase)).taxes * 3 + (fOf (fha_quote reqBase)).ins * 3) =
      .ok ((sOf (fha_quote reqBase)).box_g) ∧
    q2E (dMul (fOf (fha_quote reqBase)).daily_interest 15) =
      .ok ((sOf (fha_quote reqBase)).interim_interest) :=
  ⟨rfl, rfl, (C6_rounding_amended reqBase rfl).2.2.2.2.2 rfl rfl rfl,
    (C6_rounding_amended reqBase rfl).2.1⟩

/-- C7 counterexample: a 150% down payment on a $200,000 price gives
`base_loan = -100000`; the code does not clamp it at 0 and the
base-loan-minimum decline echoes the negative amount. -/
theorem C7_counterexample_negative_base :
    fha_quote reqOverDown = .declineBase (-100000) :=
  rfl

/-- C7 amended: `base_loan` is the 28-digit-context difference
`price ⊖ down_payment` with no clamping — exactly `price - down_payment`
whenever that subtraction is exact — and it can go negative when the down
payment exceeds the price, in which case the base-loan-minimum decline echoes
the negative value; inputs that produce a quote always have `base_loan` at
least $150,000 (hence positive). -/
theorem C7_base_loan_amended (pl : Payload)
    (h : isQuoteB (fha_quote pl) = true) :
    (fOf (fha_quote pl)).base_loan =
      dSub (fOf (fha_quote pl)).price (fOf (fha_quote pl)).down_payment ∧
    (dSub (fOf (fha_quote pl)).price (fOf (fha_quote pl)).down_payment =
        (fOf (fha_quote pl)).price - (fOf (fha_quote pl)).down_payment →
      (fOf (fha_quote pl)).base_loan =
        (fOf (fha_quote pl)).price - (fOf (fha_quote pl)).down_payment) ∧
    (150000 : Rat) ≤ (fOf (fha_quote pl)).base_loan := by
  obtain ⟨pp, fv, hp, hf, heq, hdp, hufm, hcred, hrend, hbase⟩ := quote_inv pl h
  rw [heq]
  exact ⟨rfl, fun hE => hE, hbase⟩

/-- C7 witness: at the well-formed end-to-end request the subtraction is
exact, so the base loan is exactly price minus down payment there, and above
the floor. -/
theorem C7_witness :
    isQuoteB (fha_quote reqBase) = true ∧
    dSub (fOf (fha_quote reqBase)).price (fOf (fha_quote reqBase)).down_payment =
      (fOf (fha_quote reqBase)).price - (fOf (fha_quote reqBase)).down_payment ∧
    (fOf (fha_quote reqBase)).base_loan =
      (fOf (fha_quote reqBase)).price - (fOf (fha_quote reqBase)).down_payment ∧
    (150000 : Rat) ≤ (fOf (fha_quote reqBase)).base_loan :=
  ⟨rfl, rfl, (C7_base_loan_amended reqBase rfl).2.1 rfl,
    (C7_base_loan_amended reqBase rfl).2.2⟩

/-- C8 counterexample: with a 50% lender-credit percent the reported credit
(50% of the final loan) exceeds the total closing costs — the credit itself is
not capped, only the net is floored at 0. -/
theorem C8_counterexample_credit_exceeds_total :
    isQuoteB (fha_quote reqBigCredit) = true ∧
    (fOf (fha_quote reqBigCredit)).total_closing_costs <
      (fOf (fha_quote reqBigCredit)).lender_credit_amt :=
  ⟨rfl, by decide⟩

/-- C8 amended: the lender credit is `round2` of the 28-digit-context product
`final_loan ⊗ (percent ⊘ 100)`, uncapped — exactly
`round2(final_loan * percent/100)` whenever the context divide and multiply
are exact; the net closing costs are the context difference `total ⊖ credit`
floored at 0, hence never negative; the reported credit itself can exceed the
total closing costs. -/
theorem C8_lender_credit_amended (pl : Payload)
    (h : isQuoteB (fha_quote pl) = true) :
    q2E (dMul (fOf (fha_quote pl)).final_loan (dDiv (ppOf pl).lcp 100)) =
      .ok ((fOf (fha_quote pl)).lender_credit_amt) ∧
    (dDiv (ppOf pl).lcp 100 = (ppOf pl).lcp / 100 →
      dMul (fOf (fha_quote pl)).final_loan (dDiv (ppOf pl).lcp 100) =
        (fOf (fha_quote pl)).final_loan * dDiv (ppOf pl).lcp 100 →
      q2E ((fOf (fha_quote pl)).final_loan * ((ppOf pl).lcp / 100)) =
        .ok ((fOf (fha_quote pl)).lender_credit_amt)) ∧
    (fOf (fha_quote pl)).total_after_credit =
      (if dSub (fOf (fha_quote pl)).total_closing_costs
            ((fOf (fha_quote pl)).lender_credit_amt) < 0 then 0
       else dSub (fOf (fha_quote pl)).total_closing_costs
            ((fOf (fha_quote pl)).lender_credit_amt)) ∧
    0 ≤ (fOf (fha_quote pl)).total_after_credit := by
  obtain ⟨pp, fv, hp, hf, heq, hdp, hufm, hcred, hrend, hbase⟩ := quote_inv pl h
  have hpp : ppOf pl = pp := by simp [ppOf, hp]
  rw [heq, hpp]
  refine ⟨isOkE_q2E_ok hcred, fun h1 h2 => ?_, rfl, tacOf_nonneg pp fv⟩
  rw [← h1, ← h2]
  exact isOkE_q2E_ok hcred

/-- C8 witness: at the 50% lender-credit request the divide and multiply are
exact, so the credit follows the exact formula there, and the net closing
costs are floored at 0. -/
theorem C8_witness :
    isQuoteB (fha_quote reqBigCredit) = true ∧
    dDiv (ppOf reqBigCredit).lcp 100 = (ppOf reqBigCredit).lcp / 100 ∧
    (q2E ((fOf (fha_quote reqBigCredit)).final_loan * ((ppOf reqBigCredit).lcp / 100)) =
       .ok ((fOf (fha_quote reqBigCredit)).lender_credit_amt) ∧
     0 ≤ (fOf (fha_quote reqBigCredit)).total_after_credit) :=
  ⟨rfl, rfl, (C8_lender_credit_amended reqBigCredit rfl).2.1 rfl rfl,
    (C8_lender_credit_amended reqBigCredit rfl).2.2.2⟩

/-- C9 counterexample: the numeric regex accepts a leading minus sign, so
`parse_number("-100")` is -100 and a payload with monthly taxes `-100`
reaches the math engine — and a full quote — with a negative amount. -/
theorem C9_counterexample_negative_taxes :
    parse_number (.vStr "-100") = .ok (-100) ∧
    isQuoteB (fha_quote reqNegTaxes) = true ∧
    (fOf (fha_quote reqNegTaxes)).taxes = -100 :=
  ⟨rfl, rfl, rfl⟩

/-- C9 amended: parsed amounts are exact decimals but non-negativity is not
enforced; a successful parse is non-negative exactly when the input is a
non-negative number or its cleaned text does not begin with a minus sign. -/
theorem C9_nonneg_amended (x : PyVal) (v : Rat)
    (h : parse_number x = .ok v) (hn : nonNegInputB x = true) : 0 ≤ v := by
  cases x with
  | vNone =>
    unfold parse_number at h
    injection h with h
    rw [← h]
  | vInt n =>
    unfold parse_number at h
    injection h with h
    rw [← h]
    have hn2 : (0 : Int) ≤ n := of_decide_eq_true hn
    exact_mod_cast hn2
  | vStr s =>
    unfold nonNegInputB at hn
    exact parseText_nonneg h (head_ne_minus_of_guard hn)
  | vList =>
    unfold nonNegInputB at hn
    exact parseText_nonneg h (head_ne_minus_of_guard hn)
  | vDict =>
    unfold nonNegInputB at hn
    exact parseText_nonneg h (head_ne_minus_of_guard hn)

/-- C9 witness: a dollar-and-suffix input has no minus sign and parses to a
non-negative amount. -/
theorem C9_witness :
    parse_number (.vStr "$350k") = .ok 350000 ∧
    nonNegInputB (.vStr "$350k") = true ∧
    (0 : Rat) ≤ 350000 :=
  ⟨rfl, rfl, C9_nonneg_amended (.vStr "$350k") 350000 rfl rfl⟩

/-- C10: a purchase price parsing to 0 always puts `purchase price` on the
missing list and produces the need-more-info message; monthly taxes or
insurance with non-empty raw text are never reported missing whatever value
they parse to; and a request with zero taxes and insurance (non-empty raw
text) produces a full quote. -/
theorem C10_zero_value_fields (pl : Payload) (pp : Parsed)
    (hp : parsePhase pl = .ok pp) :
    (pp.price = 0 → fha_quote pl = .needInfo (missingOf pl pp) ∧
      "purchase price" ∈ missingOf pl pp) ∧
    ((pl.monthly_taxes.getD "") ≠ "" → "monthly taxes" ∉ missingOf pl pp) ∧
    ((pl.monthly_insurance.getD "") ≠ "" → "monthly insurance" ∉ missingOf pl pp) ∧
    isQuoteB (fha_quote reqZeroEscrow) = true ∧
    (fOf (fha_quote reqZeroEscrow)).taxes = 0 ∧
    (fOf (fha_quote reqZeroEscrow)).ins = 0 := by
  refine ⟨fun h0 => ?_, fun hraw => missing_taxes_not_mem hraw,
    fun hraw => missing_ins_not_mem hraw, rfl, rfl, rfl⟩
  have hmem := missing_price_mem pl pp h0
  exact ⟨needInfo_of_missing hp (List.ne_nil_of_mem hmem), hmem⟩

/-- C10 witness: a supplied `$0` purchase price with `0` raw taxes yields the
need-more-info message whose missing list is exactly `purchase price` — taxes
are not reported missing despite parsing to zero. -/
theorem C10_witness :
    parsePhase reqZeroPrice = .ok (ppOf reqZeroPrice) ∧
    fha_quote reqZeroPrice = .needInfo (missingOf reqZeroPrice (ppOf reqZeroPrice)) ∧
    "purchase price" ∈ missingOf reqZeroPrice (ppOf reqZeroPrice) ∧
    missingOf reqZeroPrice (ppOf reqZeroPrice) = ["purchase price"] := by
  have h := (C10_zero_value_fields reqZeroPrice (ppOf reqZeroPrice) rfl).1 (by rfl)
  exact ⟨rfl, h.1, h.2, rfl⟩

end MainTheorems

end FhaMain
